import Mathlib

/-
Verification of the animation state machine and tile collision resolver of
the `fish` repository (a 2D top-down farming game), shallowly embedded in
Lean 4. The embedding follows `src/game/animation.rs`, `src/game/movement.rs`,
`src/game/player.rs` and `src/game/enemy.rs`.

Time is modelled in seconds as rational numbers; the source uses
`std::time::Duration` and `f32` seconds. World coordinates are rationals;
the source uses `f32` vectors. The vertical-axis-only `z` component of the
source `Vec3` positions is omitted: the collision query only ever reads the
`xy` components and the committed movement delta always has `z = 0`.
-/

namespace Fish

/-- Represents the direction of the player animation (`Direction` in
`src/game/animation.rs`). -/
inductive Direction where
  | Top
  | Bottom
  | Left
  | Right
deriving DecidableEq, Repr

/-- Represents the action type of the player animation (`ActionType` in
`src/game/animation.rs`). -/
inductive ActionType where
  | Hoeing
  | Watering
  | Chopping
deriving DecidableEq, Repr

/-- The 20 facing-times-activity animation states (`PlayerAnimationState` in
`src/game/animation.rs`). -/
inductive PlayerAnimationState where
  | IdlingT
  | IdlingB
  | IdlingL
  | IdlingR
  | WalkingT
  | WalkingB
  | WalkingL
  | WalkingR
  | HoeingT
  | HoeingB
  | HoeingL
  | HoeingR
  | WateringT
  | WateringB
  | WateringL
  | WateringR
  | ChoppingT
  | ChoppingB
  | ChoppingL
  | ChoppingR
deriving DecidableEq, Repr

namespace PlayerAnimationState

/-- Get the direction component of a state
(`PlayerAnimationState::get_direction`). -/
def get_direction : PlayerAnimationState → Direction
  | IdlingT | WalkingT | HoeingT | WateringT | ChoppingT => Direction.Top
  | IdlingB | WalkingB | HoeingB | WateringB | ChoppingB => Direction.Bottom
  | IdlingL | WalkingL | HoeingL | WateringL | ChoppingL => Direction.Left
  | IdlingR | WalkingR | HoeingR | WateringR | ChoppingR => Direction.Right

/-- Create a state from action and direction
(`PlayerAnimationState::from_action_and_direction`). -/
def from_action_and_direction : ActionType → Direction → PlayerAnimationState
  | ActionType.Hoeing, Direction.Top => HoeingT
  | ActionType.Hoeing, Direction.Bottom => HoeingB
  | ActionType.Hoeing, Direction.Left => HoeingL
  | ActionType.Hoeing, Direction.Right => HoeingR
  | ActionType.Watering, Direction.Top => WateringT
  | ActionType.Watering, Direction.Bottom => WateringB
  | ActionType.Watering, Direction.Left => WateringL
  | ActionType.Watering, Direction.Right => WateringR
  | ActionType.Chopping, Direction.Top => ChoppingT
  | ActionType.Chopping, Direction.Bottom => ChoppingB
  | ActionType.Chopping, Direction.Left => ChoppingL
  | ActionType.Chopping, Direction.Right => ChoppingR

/-- Whether a state is one of the four walking states
(`PlayerAnimationState::is_walking`). -/
def is_walking : PlayerAnimationState → Bool
  | WalkingT | WalkingB | WalkingL | WalkingR => true
  | _ => false

end PlayerAnimationState

/-- Modelled from the spec: the repeating countdown timer owned by each
animation instance. The concrete timer type (bevy `Timer` in `Repeating`
mode) is external to this repository; only its constructor, `tick` and
`finished` are used by the source. A repeating timer accumulates elapsed
time; when the accumulated time reaches the duration the timer reports
finished for that tick and wraps the elapsed time modulo the duration. -/
structure Timer where
  duration : ℚ
  elapsed : ℚ
  finished : Bool
deriving DecidableEq, Repr

namespace Timer

/-- Modelled from the spec: a fresh repeating timer with the given duration,
nothing elapsed and not yet finished (`Timer::new(duration, TimerMode::Repeating)`). -/
def new (duration : ℚ) : Timer :=
  { duration := duration, elapsed := 0, finished := false }

/-- Modelled from the spec: advancing a repeating timer by a time delta.
The elapsed time grows by the delta; if it reaches the duration the timer
is finished for this tick and the elapsed time wraps modulo the duration,
otherwise it is not finished. -/
def tick (t : Timer) (delta : ℚ) : Timer :=
  let e := t.elapsed + delta
  if t.duration ≤ e then
    { t with elapsed := e - t.duration * (Rat.floor (e / t.duration) : ℚ),
             finished := true }
  else
    { t with elapsed := e, finished := false }

end Timer

/-- Component that tracks the animation state of the player
(`PlayerAnimation` in `src/game/animation.rs`). -/
structure PlayerAnimation where
  timer : Timer
  frame : ℕ
  state : PlayerAnimationState
  state_changed : Bool
deriving DecidableEq, Repr

namespace PlayerAnimation

/-- `PlayerAnimation::IDLE_INTERVAL` = 500 ms, in seconds. -/
def IDLE_INTERVAL : ℚ := 1 / 2

/-- `PlayerAnimation::WALKING_INTERVAL` = 150 ms, in seconds. -/
def WALKING_INTERVAL : ℚ := 3 / 20

/-- `PlayerAnimation::HOEING_INTERVAL` = 300 ms, in seconds. -/
def HOEING_INTERVAL : ℚ := 3 / 10

/-- `PlayerAnimation::WATERING_INTERVAL` = 300 ms, in seconds. -/
def WATERING_INTERVAL : ℚ := 3 / 10

/-- `PlayerAnimation::CHOPPING_INTERVAL` = 300 ms, in seconds. -/
def CHOPPING_INTERVAL : ℚ := 3 / 10

/-- `PlayerAnimation::WALKING_FRAMES` = 2. -/
def WALKING_FRAMES : ℕ := 2

/-- `PlayerAnimation::HOEING_FRAMES` = 2. -/
def HOEING_FRAMES : ℕ := 2

/-- `PlayerAnimation::WATERING_FRAMES` = 2. -/
def WATERING_FRAMES : ℕ := 2

/-- `PlayerAnimation::IDLE_FRAMES` = 2. -/
def IDLE_FRAMES : ℕ := 2

/-- `PlayerAnimation::CHOPPING_FRAMES` = 2. -/
def CHOPPING_FRAMES : ℕ := 2

/-- `PlayerAnimation::internal_new`: a fresh instance with a new repeating
timer of the given duration, frame 0, the given state, and the dirty flag
set. -/
def internal_new (duration : ℚ) (state : PlayerAnimationState) : PlayerAnimation :=
  { timer := Timer.new duration, frame := 0, state := state, state_changed := true }

/-- `PlayerAnimation::new`: the spawn-time default, idling facing down. -/
def new : PlayerAnimation :=
  internal_new IDLE_INTERVAL PlayerAnimationState.IdlingB

open PlayerAnimationState in
/-- The per-state frame count used by the modulus in
`PlayerAnimation::update_timer` (the inline 20-arm match of the source,
every arm one of the per-category `*_FRAMES` constants). -/
def frame_count : PlayerAnimationState → ℕ
  | IdlingB => IDLE_FRAMES
  | IdlingT => IDLE_FRAMES
  | IdlingL => IDLE_FRAMES
  | IdlingR => IDLE_FRAMES
  | WalkingT => WALKING_FRAMES
  | WalkingL => WALKING_FRAMES
  | WalkingR => WALKING_FRAMES
  | WalkingB => WALKING_FRAMES
  | HoeingT => HOEING_FRAMES
  | HoeingL => HOEING_FRAMES
  | HoeingR => HOEING_FRAMES
  | HoeingB => HOEING_FRAMES
  | WateringT => WATERING_FRAMES
  | WateringL => WATERING_FRAMES
  | WateringR => WATERING_FRAMES
  | WateringB => WATERING_FRAMES
  | ChoppingT => CHOPPING_FRAMES
  | ChoppingB => CHOPPING_FRAMES
  | ChoppingL => CHOPPING_FRAMES
  | ChoppingR => CHOPPING_FRAMES

/-- `PlayerAnimation::update_timer`: tick the timer; on expiry advance the
frame modulo the per-state frame count, otherwise return early. -/
def update_timer (a : PlayerAnimation) (delta : ℚ) : PlayerAnimation :=
  let t := a.timer.tick delta
  if ¬ t.finished then
    { a with timer := t }
  else
    { a with timer := t, frame := (a.frame + 1) % frame_count a.state }

open PlayerAnimationState in
/-- The per-state timer duration used by `PlayerAnimation::update_state`
(each arm of the 20-arm source match calls `internal_new` with one of the
per-category `*_INTERVAL` constants; this function records which). -/
def state_interval : PlayerAnimationState → ℚ
  | IdlingB => IDLE_INTERVAL
  | IdlingT => IDLE_INTERVAL
  | IdlingL => IDLE_INTERVAL
  | IdlingR => IDLE_INTERVAL
  | WalkingB => WALKING_INTERVAL
  | WalkingT => WALKING_INTERVAL
  | WalkingL => WALKING_INTERVAL
  | WalkingR => WALKING_INTERVAL
  | HoeingT => HOEING_INTERVAL
  | HoeingB => HOEING_INTERVAL
  | HoeingL => HOEING_INTERVAL
  | HoeingR => HOEING_INTERVAL
  | WateringT => WATERING_INTERVAL
  | WateringB => WATERING_INTERVAL
  | WateringL => WATERING_INTERVAL
  | WateringR => WATERING_INTERVAL
  | ChoppingT => CHOPPING_INTERVAL
  | ChoppingB => CHOPPING_INTERVAL
  | ChoppingL => CHOPPING_INTERVAL
  | ChoppingR => CHOPPING_INTERVAL

/-- `PlayerAnimation::update_state`: a no-op when the state is unchanged;
otherwise the whole instance is replaced by `internal_new` with the
duration selected by the new state (the 20-arm source match, factored
through `state_interval`). -/
def update_state (a : PlayerAnimation) (state : PlayerAnimationState) : PlayerAnimation :=
  if a.state ≠ state then
    internal_new (state_interval state) state
  else
    a

/-- `PlayerAnimation::changed`: dirty flag, or the timer just finished. -/
def changed (a : PlayerAnimation) : Bool :=
  if a.state_changed then true else a.timer.finished

/-- `PlayerAnimation::set_state_changed`. -/
def set_state_changed (a : PlayerAnimation) (state_changed : Bool) : PlayerAnimation :=
  { a with state_changed := state_changed }

open PlayerAnimationState in
/-- `PlayerAnimation::get_atlas_index`: sprite index in the atlas, the
20-arm source match returning a fixed base plus the current frame. -/
def get_atlas_index (a : PlayerAnimation) : ℕ :=
  match a.state with
  | IdlingB => a.frame
  | WalkingB => 2 + a.frame
  | IdlingL => 32 + a.frame
  | WalkingL => 34 + a.frame
  | IdlingR => 48 + a.frame
  | WalkingR => 50 + a.frame
  | IdlingT => 16 + a.frame
  | WalkingT => 18 + a.frame
  | HoeingT => 20 + a.frame
  | HoeingB => 4 + a.frame
  | HoeingL => 36 + a.frame
  | HoeingR => 52 + a.frame
  | WateringT => 24 + a.frame
  | WateringB => 8 + a.frame
  | WateringL => 40 + a.frame
  | WateringR => 56 + a.frame
  | ChoppingT => 22 + a.frame
  | ChoppingB => 6 + a.frame
  | ChoppingL => 38 + a.frame
  | ChoppingR => 54 + a.frame

end PlayerAnimation

open PlayerAnimationState in
/-- The 20-entry base-offset table of the atlas layout, as the spec states
it: `get_atlas_index` must equal this base plus the current frame. The
entries are the constants of the 20 source match arms. -/
def atlas_base : PlayerAnimationState → ℕ
  | IdlingB => 0
  | WalkingB => 2
  | IdlingL => 32
  | WalkingL => 34
  | IdlingR => 48
  | WalkingR => 50
  | IdlingT => 16
  | WalkingT => 18
  | HoeingT => 20
  | HoeingB => 4
  | HoeingL => 36
  | HoeingR => 52
  | WateringT => 24
  | WateringB => 8
  | WateringL => 40
  | WateringR => 56
  | ChoppingT => 22
  | ChoppingB => 6
  | ChoppingL => 38
  | ChoppingR => 54

/-- C1: for every animation instance (hence every state and frame),
`get_atlas_index` is the fixed 20-entry base-offset table entry for the
state plus the frame; in particular a WalkingB instance yields `2 + frame`,
a HoeingT instance `20 + frame`, and a ChoppingR instance `54 + frame`. -/
theorem C1_atlas_index_table (a : PlayerAnimation) :
    a.get_atlas_index = atlas_base a.state + a.frame
    ∧ ({ a with state := PlayerAnimationState.WalkingB } : PlayerAnimation).get_atlas_index
        = 2 + a.frame
    ∧ ({ a with state := PlayerAnimationState.HoeingT } : PlayerAnimation).get_atlas_index
        = 20 + a.frame
    ∧ ({ a with state := PlayerAnimationState.ChoppingR } : PlayerAnimation).get_atlas_index
        = 54 + a.frame := by
  refine ⟨?_, rfl, rfl, rfl⟩
  rcases a with ⟨t, f, s, c⟩
  cases s <;> simp [PlayerAnimation.get_atlas_index, atlas_base]

/-- A sequence of `update_timer` calls, one per element of the delta list
(the advance operation iterated over a tick sequence). -/
def advance_all (a : PlayerAnimation) (dts : List ℚ) : PlayerAnimation :=
  dts.foldl PlayerAnimation.update_timer a

/-- A fresh instance in state `s`, as produced by a transition into `s`
(`internal_new` with the duration `update_state` selects for `s`). -/
def fresh_for (s : PlayerAnimationState) : PlayerAnimation :=
  PlayerAnimation.internal_new (PlayerAnimation.state_interval s) s

theorem rat_floor_eq_int_floor (q : ℚ) : Rat.floor q = ⌊q⌋ := rfl

theorem state_interval_pos (s : PlayerAnimationState) :
    0 < PlayerAnimation.state_interval s := by
  cases s <;> norm_num [PlayerAnimation.state_interval, PlayerAnimation.IDLE_INTERVAL,
    PlayerAnimation.WALKING_INTERVAL, PlayerAnimation.HOEING_INTERVAL,
    PlayerAnimation.WATERING_INTERVAL, PlayerAnimation.CHOPPING_INTERVAL]

theorem frame_count_eq_two (s : PlayerAnimationState) :
    PlayerAnimation.frame_count s = 2 := by
  cases s <;> rfl

/-- Invariant tying an animation instance in state `s` to the total time
`t` fed to its timer since the instance was fresh: the timer phase is the
residue of `t` modulo the per-state duration, and the frame parity is the
parity of the number of completed periods. -/
def TimerInv (s : PlayerAnimationState) (t : ℚ) (a : PlayerAnimation) : Prop :=
  a.state = s
  ∧ a.timer.duration = PlayerAnimation.state_interval s
  ∧ 0 ≤ a.timer.elapsed
  ∧ a.timer.elapsed < PlayerAnimation.state_interval s
  ∧ a.frame < 2
  ∧ ∃ k : ℕ, t = PlayerAnimation.state_interval s * k + a.timer.elapsed
      ∧ a.frame % 2 = k % 2

theorem timer_inv_init (s : PlayerAnimationState) : TimerInv s 0 (fresh_for s) := by
  refine ⟨rfl, rfl, le_refl _, state_interval_pos s, ?_, 0, ?_, rfl⟩
  · simp [fresh_for, PlayerAnimation.internal_new]
  · simp [fresh_for, PlayerAnimation.internal_new, Timer.new]

theorem timer_inv_step (s : PlayerAnimationState) (t dt : ℚ) (a : PlayerAnimation)
    (h : TimerInv s t a) (h0 : 0 ≤ dt) (h1 : dt ≤ PlayerAnimation.state_interval s) :
    TimerInv s (t + dt) (a.update_timer dt) := by
  obtain ⟨hs, hd, he0, he1, hf, k, hk, hfk⟩ := h
  have hdpos : 0 < PlayerAnimation.state_interval s := state_interval_pos s
  by_cases hfin : PlayerAnimation.state_interval s ≤ a.timer.elapsed + dt
  · have hlt2 : a.timer.elapsed + dt < 2 * PlayerAnimation.state_interval s := by linarith
    have hfl : Rat.floor ((a.timer.elapsed + dt) / PlayerAnimation.state_interval s) = 1 := by
      have hge : (1 : ℚ) ≤ (a.timer.elapsed + dt) / PlayerAnimation.state_interval s :=
        (le_div_iff₀ hdpos).mpr (by linarith)
      have hlt : (a.timer.elapsed + dt) / PlayerAnimation.state_interval s < 2 :=
        (div_lt_iff₀ hdpos).mpr (by linarith)
      have g1 : (1 : ℤ) ≤ Rat.floor ((a.timer.elapsed + dt) / PlayerAnimation.state_interval s) :=
        Rat.le_floor.mpr (by push_cast; exact hge)
      have g2 : ¬ (2 : ℤ) ≤ Rat.floor ((a.timer.elapsed + dt) / PlayerAnimation.state_interval s) := by
        intro hcon
        have := Rat.le_floor.mp hcon
        push_cast at this
        linarith
      omega
    have htick : a.timer.tick dt =
        { duration := a.timer.duration,
          elapsed := a.timer.elapsed + dt - PlayerAnimation.state_interval s,
          finished := true } := by
      simp only [Timer.tick, hd, if_pos hfin, hfl]
      norm_num
    have hupd : a.update_timer dt =
        { timer := { duration := a.timer.duration,
                     elapsed := a.timer.elapsed + dt - PlayerAnimation.state_interval s,
                     finished := true },
          frame := (a.frame + 1) % 2,
          state := a.state,
          state_changed := a.state_changed } := by
      simp [PlayerAnimation.update_timer, htick, hs, frame_count_eq_two]
    rw [hupd]
    refine ⟨hs, hd, by simp; linarith, by simp; linarith, by simp [Nat.mod_lt],
      k + 1, ?_, ?_⟩
    · simp only
      push_cast
      linarith
    · simp only
      omega
  · have htick : a.timer.tick dt =
        { duration := a.timer.duration,
          elapsed := a.timer.elapsed + dt,
          finished := false } := by
      simp only [Timer.tick, hd, if_neg hfin]
    have hupd : a.update_timer dt =
        { timer := { duration := a.timer.duration,
                     elapsed := a.timer.elapsed + dt,
                     finished := false },
          frame := a.frame,
          state := a.state,
          state_changed := a.state_changed } := by
      simp [PlayerAnimation.update_timer, htick]
    rw [hupd]
    refine ⟨hs, hd, by simp; linarith, by simp; linarith, by simp [hf], k, ?_, by simp [hfk]⟩
    simp only
    linarith

theorem timer_inv_fold (s : PlayerAnimationState) (dts : List ℚ)
    (hb : ∀ x ∈ dts, 0 ≤ x ∧ x ≤ PlayerAnimation.state_interval s)
    (a : PlayerAnimation) (t : ℚ) (h : TimerInv s t a) :
    TimerInv s (t + dts.sum) (advance_all a dts) := by
  induction dts generalizing a t with
  | nil => simpa [advance_all] using h
  | cons x xs ih =>
      have hx := hb x (by simp)
      have hstep := timer_inv_step s t x a h hx.1 hx.2
      have := ih (fun y hy => hb y (by simp [hy])) (a.update_timer x) (t + x) hstep
      have heq : t + x + xs.sum = t + (x :: xs).sum := by simp; ring
      rw [heq] at this
      simpa [advance_all] using this

theorem timer_inv_extract (s : PlayerAnimationState) (n : ℕ) (a : PlayerAnimation)
    (h : TimerInv s (PlayerAnimation.state_interval s * n) a) :
    a.frame = n % 2 := by
  obtain ⟨_, _, he0, he1, hf, k, hk, hfk⟩ := h
  have hdpos : 0 < PlayerAnimation.state_interval s := state_interval_pos s
  have hkn : k = n := by
    have h1 : (k : ℚ) ≤ (n : ℚ) := by
      have := (mul_le_mul_left hdpos).mpr (le_refl (k : ℚ))
      nlinarith
    have h2 : (n : ℚ) < (k : ℚ) + 1 := by nlinarith
    have h1n : k ≤ n := by exact_mod_cast h1
    have h2n : (n : ℚ) < ((k + 1 : ℕ) : ℚ) := by push_cast; exact h2
    have h2n2 : n < k + 1 := by exact_mod_cast h2n
    omega
  omega

/-- C5 (amended): starting fresh in any state S, a sequence of nonnegative
timer advances summing to exactly one full duration for S moves the frame
from 0 to 1; a sequence summing to exactly two full durations, in which
each individual advance is at most one full duration, returns the frame to
0. (The per-call bound is needed for the second half: `update_timer`
advances the frame at most once per call, so a single call spanning both
durations advances the frame only once.) -/
theorem C5_frame_cycle (s : PlayerAnimationState) (dts : List ℚ) :
    ((∀ x ∈ dts, 0 ≤ x) → dts.sum = PlayerAnimation.state_interval s →
      (advance_all (fresh_for s) dts).frame = 1)
    ∧ ((∀ x ∈ dts, 0 ≤ x ∧ x ≤ PlayerAnimation.state_interval s) →
        dts.sum = 2 * PlayerAnimation.state_interval s →
      (advance_all (fresh_for s) dts).frame = 0) := by
  constructor
  · intro hpos hsum
    have hb : ∀ x ∈ dts, 0 ≤ x ∧ x ≤ PlayerAnimation.state_interval s := by
      intro x hx
      exact ⟨hpos x hx, hsum ▸ List.single_le_sum hpos x hx⟩
    have hinv := timer_inv_fold s dts hb _ 0 (timer_inv_init s)
    rw [zero_add, hsum] at hinv
    have := timer_inv_extract s 1 _ (by simpa using hinv)
    simpa using this
  · intro hb hsum
    have hinv := timer_inv_fold s dts hb _ 0 (timer_inv_init s)
    rw [zero_add, hsum] at hinv
    have := timer_inv_extract s 2 _ (by rw [mul_comm] at hinv; simpa using hinv)
    simpa using this

/-- Witness for C5 at concrete inputs: from a fresh IdlingB instance
(duration 500 ms), advances of 300 ms + 200 ms reach frame 1, and four
advances of 250 ms (two full durations) return to frame 0. -/
theorem C5_frame_cycle_witness :
    (advance_all (fresh_for PlayerAnimationState.IdlingB) [3 / 10, 1 / 5]).frame = 1
    ∧ (advance_all (fresh_for PlayerAnimationState.IdlingB)
        [1 / 4, 1 / 4, 1 / 4, 1 / 4]).frame = 0 :=
  ⟨(C5_frame_cycle PlayerAnimationState.IdlingB [3 / 10, 1 / 5]).1
      (by norm_num)
      (by norm_num [PlayerAnimation.state_interval, PlayerAnimation.IDLE_INTERVAL]),
   (C5_frame_cycle PlayerAnimationState.IdlingB [1 / 4, 1 / 4, 1 / 4, 1 / 4]).2
      (by norm_num [PlayerAnimation.state_interval, PlayerAnimation.IDLE_INTERVAL])
      (by norm_num [PlayerAnimation.state_interval, PlayerAnimation.IDLE_INTERVAL])⟩

/-- Counterexample to C5 as stated: the claim quantifies over every
sequence of advances summing to two full durations, but a single advance
of 1 s on a fresh IdlingB instance (whose duration is 500 ms, so 1 s is
exactly two full durations) leaves the frame at 1, not back at 0:
`update_timer` advances the frame at most once per call. -/
theorem C5_counterexample_single_advance :
    (1 : ℚ) = 2 * PlayerAnimation.state_interval PlayerAnimationState.IdlingB
    ∧ (advance_all (fresh_for PlayerAnimationState.IdlingB) [1]).frame = 1 := by
  constructor
  · norm_num [PlayerAnimation.state_interval, PlayerAnimation.IDLE_INTERVAL]
  · norm_num [advance_all, fresh_for, PlayerAnimation.internal_new, Timer.new,
      PlayerAnimation.update_timer, Timer.tick, PlayerAnimation.state_interval,
      PlayerAnimation.IDLE_INTERVAL, PlayerAnimation.frame_count,
      PlayerAnimation.IDLE_FRAMES, rat_floor_eq_int_floor]

/-- C4: for every state S and every instance, calling `update_state` twice
consecutively with the same S is idempotent: the second call is a no-op,
leaving the frame, the timer (hence its phase — no timer reset), and the
dirty flag exactly as after the first call. -/
theorem C4_transition_idempotent (a : PlayerAnimation) (s : PlayerAnimationState) :
    (a.update_state s).update_state s = a.update_state s := by
  by_cases h : a.state = s
  · simp [PlayerAnimation.update_state, h]
  · simp [PlayerAnimation.update_state, h, PlayerAnimation.internal_new]

/-- C10: the frame index is at most 1 at spawn and stays so under both
timer advance and state transitions, and for any instance with frame at
most 1 the atlas index is at most 57, strictly below the 96 cells of the
16-column by 6-row atlas the player sprite is built from
(`TextureAtlasLayout::from_grid(_, 16, 6, _, _)` in `src/game/player.rs`). -/
theorem C10_atlas_index_in_bounds :
    PlayerAnimation.new.frame < 2
    ∧ (∀ (a : PlayerAnimation) (delta : ℚ), a.frame < 2 → (a.update_timer delta).frame < 2)
    ∧ (∀ (a : PlayerAnimation) (s : PlayerAnimationState), a.frame < 2 →
        (a.update_state s).frame < 2)
    ∧ (∀ a : PlayerAnimation, a.frame < 2 →
        a.get_atlas_index ≤ 57 ∧ a.get_atlas_index < 16 * 6) := by
  refine ⟨by decide, ?_, ?_, ?_⟩
  · intro a delta h
    simp only [PlayerAnimation.update_timer]
    split
    · exact h
    · exact Nat.lt_of_lt_of_le (Nat.mod_lt _ (by cases a.state <;> decide))
        (by cases a.state <;> decide)
  · intro a s h
    simp only [PlayerAnimation.update_state, PlayerAnimation.internal_new]
    split <;> simp [h]
  · intro a h
    rcases a with ⟨t, f, s, c⟩
    simp only at h
    interval_cases f <;> cases s <;> simp [PlayerAnimation.get_atlas_index]

/-- Witness for C10 at a concrete instance: one timer advance from spawn
keeps the atlas index within the atlas. -/
theorem C10_atlas_index_in_bounds_witness :
    (PlayerAnimation.new.update_timer (1 / 2)).get_atlas_index ≤ 57 :=
  (C10_atlas_index_in_bounds.2.2.2 _
    (C10_atlas_index_in_bounds.2.1 _ _ C10_atlas_index_in_bounds.1)).1

/-- A 2D vector with rational components (`Vec2` of the engine math
library, over exact rationals instead of `f32`). -/
structure Vec2 where
  x : ℚ
  y : ℚ
deriving DecidableEq, Repr

namespace Vec2

/-- `Vec2::ZERO`. -/
def zero : Vec2 := ⟨0, 0⟩

/-- Componentwise vector addition. -/
def add (a b : Vec2) : Vec2 := ⟨a.x + b.x, a.y + b.y⟩

/-- Scalar multiplication of a vector. -/
def smul (c : ℚ) (v : Vec2) : Vec2 := ⟨c * v.x, c * v.y⟩

/-- `Vec2::length_squared`. -/
def length_squared (v : Vec2) : ℚ := v.x * v.x + v.y * v.y

theorem length_squared_eq_zero_iff (v : Vec2) :
    ¬ 0 < v.length_squared ↔ v = zero := by
  rcases v with ⟨x, y⟩
  constructor
  · intro h
    have hx : x * x + y * y ≤ 0 := not_lt.mp h
    have h1 : 0 ≤ x * x := mul_self_nonneg x
    have h2 : 0 ≤ y * y := mul_self_nonneg y
    have hx0 : x = 0 := by nlinarith
    have hy0 : y = 0 := by nlinarith
    simp [zero, hx0, hy0]
  · intro h
    rw [h]
    simp [zero, length_squared]

end Vec2

/-- The tilemap data a collision query reads: dimensions (`TilemapSize`),
tile geometry (`TilemapGridSize`, `TilemapTileSize`), the map transform
(`Transform`, modelled as the translation component; the maps of this game
are translated, unrotated and unscaled, and the inverse of a pure
translation subtracts the translation), the anchor offset
(`TilemapAnchor`, as the world-space offset it induces), and the tile
storage (`TileStorage`, a per-cell optional tile entity; `true` marks a
tile entity carrying the `Obstacle` marker of
`src/world/tiledhelper.rs`, which is what `obstacle_q.get(tile_entity).is_ok()`
tests in `src/game/movement.rs`). -/
structure Tilemap where
  width : ℕ
  height : ℕ
  tile_w : ℚ
  tile_h : ℚ
  translation : Vec2
  anchor_offset : Vec2
  tiles : ℕ → ℕ → Option Bool

namespace Tilemap

/-- Modelled from the spec: conversion of a world position into map-local
space via the inverse of the tilemap world transform (the source inverts
the transform matrix; for the pure-translation transforms of this game
that is subtraction of the translation). -/
def to_map_local (m : Tilemap) (p : Vec2) : Vec2 :=
  ⟨p.x - m.translation.x, p.y - m.translation.y⟩

/-- Modelled from the spec: `TilePos::from_world_pos` for a square-grid
map — the map-local position, shifted by the anchor offset, is divided by
the tile size and floored to a cell; the result is `none` when the cell
lies outside the `width` by `height` grid. -/
def from_world_pos (m : Tilemap) (p : Vec2) : Option (ℕ × ℕ) :=
  let cx : ℤ := Rat.floor ((p.x - m.anchor_offset.x) / m.tile_w)
  let cy : ℤ := Rat.floor ((p.y - m.anchor_offset.y) / m.tile_h)
  if 0 ≤ cx ∧ 0 ≤ cy ∧ cx < (m.width : ℤ) ∧ cy < (m.height : ℤ) then
    some (cx.toNat, cy.toNat)
  else
    none

/-- The tile query of the resolver: the prospective world position is taken
to map-local space, mapped to a grid cell, and looked up in the tile
storage; `none` when the position maps outside the grid or the cell holds
no tile entity, otherwise whether the tile entity carries `Obstacle`. -/
def tile_query (m : Tilemap) (p : Vec2) : Option Bool :=
  match m.from_world_pos (m.to_map_local p) with
  | none => none
  | some c => m.tiles c.1 c.2

/-- Whether the tile query at `p` resolves to a tile entity carrying the
`Obstacle` marker (the conjunction of the two `let Some` bindings and the
`obstacle_q.get(tile_entity).is_ok()` test of the source). -/
def blocks (m : Tilemap) (p : Vec2) : Bool :=
  match m.tile_query p with
  | some b => b
  | none => false

end Tilemap

/-- An actor processed by `apply_movement`: its `MovementController`
(`intent`, `max_speed`), its `Transform` translation, and its `Aabb`
half-extents. -/
structure Actor where
  intent : Vec2
  max_speed : ℚ
  translation : Vec2
  half_extents : Vec2
deriving DecidableEq, Repr

namespace Actor

/-- The movement delta of one tick: `velocity = max_speed * intent`,
`delta_movement = velocity * delta_secs` (`src/game/movement.rs`). -/
def move_delta (a : Actor) (dt : ℚ) : Vec2 :=
  let velocity := Vec2.smul a.max_speed a.intent
  Vec2.smul dt velocity

/-- The prospective position of one tick: current translation plus the
movement delta plus the half-extents (`future_position` in the source). -/
def future_position (a : Actor) (dt : ℚ) : Vec2 :=
  Vec2.add (Vec2.add a.translation (a.move_delta dt)) a.half_extents

end Actor

/-- The per-actor body of `apply_movement` (the movement resolution the
spec names `resolve_movement`): if, for some tilemap, the prospective
position resolves to a tile entity carrying the `Obstacle` marker, the
actor is left unchanged; otherwise the delta is committed when the intent
has positive squared length. -/
def resolve_movement (dt : ℚ) (maps : List Tilemap) (a : Actor) : Actor :=
  if maps.any (fun m => m.blocks (a.future_position dt)) then
    a
  else if 0 < a.intent.length_squared then
    { a with translation := Vec2.add a.translation (a.move_delta dt) }
  else
    a

/-- `apply_movement` over the queried actors in iteration order. The
source `return`s out of the whole system when an obstacle blocks the
current actor, so the blocked actor and every actor after it are left
unprocessed for the tick. -/
def apply_movement (dt : ℚ) (maps : List Tilemap) : List Actor → List Actor
  | [] => []
  | a :: rest =>
    if maps.any (fun m => m.blocks (a.future_position dt)) then
      a :: rest
    else if 0 < a.intent.length_squared then
      { a with translation := Vec2.add a.translation (a.move_delta dt) }
        :: apply_movement dt maps rest
    else
      a :: apply_movement dt maps rest

/-- C2: for every actor with nonzero intent, every delta time and every
tilemap: when the prospective position resolves to a tile entity carrying
the `Obstacle` marker the resolver leaves the actor entirely unchanged
(zero committed delta, no partial sliding); when it does not, the full
delta is committed unchanged. -/
theorem C2_obstacle_blocks_fully (a : Actor) (dt : ℚ) (m : Tilemap)
    (h : a.intent ≠ Vec2.zero) :
    (m.blocks (a.future_position dt) = true → resolve_movement dt [m] a = a)
    ∧ (m.blocks (a.future_position dt) = false →
        resolve_movement dt [m] a
          = { a with translation := Vec2.add a.translation (a.move_delta dt) }) := by
  have hlen : 0 < a.intent.length_squared := by
    by_contra hc
    exact h ((Vec2.length_squared_eq_zero_iff a.intent).mp hc)
  constructor
  · intro hb
    simp [resolve_movement, hb]
  · intro hb
    simp [resolve_movement, hb, hlen]

/-- Witness for C2 at a concrete input: on a 2-by-2 all-obstacle map, an
actor one half tile away moving right is left exactly in place. -/
theorem C2_obstacle_blocks_fully_witness :
    resolve_movement (1 / 2)
      [⟨2, 2, 1, 1, Vec2.zero, Vec2.zero, fun _ _ => some true⟩]
      ⟨⟨1, 0⟩, 1, ⟨0, 0⟩, ⟨0, 0⟩⟩ = ⟨⟨1, 0⟩, 1, ⟨0, 0⟩, ⟨0, 0⟩⟩ :=
  (C2_obstacle_blocks_fully ⟨⟨1, 0⟩, 1, ⟨0, 0⟩, ⟨0, 0⟩⟩ (1 / 2)
      ⟨2, 2, 1, 1, Vec2.zero, Vec2.zero, fun _ _ => some true⟩
      (by simp [Vec2.zero])).1
    (by norm_num [Tilemap.blocks, Tilemap.tile_query, Tilemap.from_world_pos,
      Tilemap.to_map_local, Actor.future_position, Actor.move_delta,
      Vec2.add, Vec2.smul, Vec2.zero, rat_floor_eq_int_floor])

/-- C3: an actor whose movement intent is the zero vector is left exactly
unchanged by the resolver, for every max speed, delta time and tilemap
collection. -/
theorem C3_zero_intent_never_moves (a : Actor) (dt : ℚ) (maps : List Tilemap)
    (h : a.intent = Vec2.zero) : resolve_movement dt maps a = a := by
  have hlen : ¬ 0 < a.intent.length_squared :=
    (Vec2.length_squared_eq_zero_iff a.intent).mpr h
  unfold resolve_movement
  split
  · rfl
  · simp [hlen]

/-- Witness for C3 at a concrete input: a zero-intent actor with a large
max speed does not move. -/
theorem C3_zero_intent_never_moves_witness :
    resolve_movement 1 [] ⟨⟨0, 0⟩, 400, ⟨7, 3⟩, ⟨1, 1⟩⟩ = ⟨⟨0, 0⟩, 400, ⟨7, 3⟩, ⟨1, 1⟩⟩ :=
  C3_zero_intent_never_moves ⟨⟨0, 0⟩, 400, ⟨7, 3⟩, ⟨1, 1⟩⟩ 1 [] rfl

/-- C7: when the prospective position maps outside every grid entirely, or
to a cell with no stored tile entity, the resolver is permissive: the full
delta is committed (with zero intent the full delta is the zero delta). -/
theorem C7_missing_tile_permits (a : Actor) (dt : ℚ) (maps : List Tilemap)
    (h : ∀ m ∈ maps, m.tile_query (a.future_position dt) = none) :
    resolve_movement dt maps a
      = { a with translation := Vec2.add a.translation (a.move_delta dt) } := by
  have hb : (maps.any (fun m => m.blocks (a.future_position dt))) = false := by
    simp only [List.any_eq_false]
    intro m hm
    simp [Tilemap.blocks, h m hm]
  by_cases hlen : 0 < a.intent.length_squared
  · simp [resolve_movement, hb, hlen]
  · have hz : a.intent = Vec2.zero := (Vec2.length_squared_eq_zero_iff a.intent).mp hlen
    have hdelta : a.move_delta dt = Vec2.zero := by
      simp [Actor.move_delta, hz, Vec2.smul, Vec2.zero]
    have hadd : Vec2.add a.translation Vec2.zero = a.translation := by
      simp [Vec2.add, Vec2.zero]
    simp [resolve_movement, hb, hlen, hdelta, hadd]

/-- Witness for C7 at a concrete input: an actor far outside a 1-by-1 map
commits its full delta. -/
theorem C7_missing_tile_permits_witness :
    resolve_movement 1 [⟨1, 1, 1, 1, Vec2.zero, Vec2.zero, fun _ _ => some true⟩]
      ⟨⟨1, 0⟩, 1, ⟨5, 5⟩, ⟨0, 0⟩⟩ = ⟨⟨1, 0⟩, 1, ⟨6, 5⟩, ⟨0, 0⟩⟩ := by
  have h := C7_missing_tile_permits ⟨⟨1, 0⟩, 1, ⟨5, 5⟩, ⟨0, 0⟩⟩ 1
    [⟨1, 1, 1, 1, Vec2.zero, Vec2.zero, fun _ _ => some true⟩]
    (by norm_num [Tilemap.tile_query, Tilemap.from_world_pos, Tilemap.to_map_local,
      Actor.future_position, Actor.move_delta, Vec2.add, Vec2.smul, Vec2.zero,
      rat_floor_eq_int_floor])
  rw [h]
  norm_num [Vec2.add, Vec2.smul, Actor.move_delta]

/-- C8 is violated by the code: `apply_movement` exits the whole system
(`return`, not a per-actor `continue`) as soon as one actor is blocked, so
with an all-obstacle 1-by-1 map in front of the first actor, the second
actor — far from any obstacle, with nonzero intent — is left unmoved for
the tick even though resolving it alone would commit its full delta. -/
theorem C8_blocked_actor_halts_tick :
    apply_movement (1 / 4) [⟨1, 1, 1, 1, Vec2.zero, Vec2.zero, fun _ _ => some true⟩]
        [⟨⟨1, 0⟩, 1, ⟨0, 0⟩, ⟨0, 0⟩⟩, ⟨⟨1, 0⟩, 1, ⟨10, 10⟩, ⟨0, 0⟩⟩]
      = [⟨⟨1, 0⟩, 1, ⟨0, 0⟩, ⟨0, 0⟩⟩, ⟨⟨1, 0⟩, 1, ⟨10, 10⟩, ⟨0, 0⟩⟩]
    ∧ resolve_movement (1 / 4) [⟨1, 1, 1, 1, Vec2.zero, Vec2.zero, fun _ _ => some true⟩]
        ⟨⟨1, 0⟩, 1, ⟨10, 10⟩, ⟨0, 0⟩⟩
      ≠ ⟨⟨1, 0⟩, 1, ⟨10, 10⟩, ⟨0, 0⟩⟩ := by
  constructor
  · norm_num [apply_movement, Tilemap.blocks, Tilemap.tile_query, Tilemap.from_world_pos,
      Tilemap.to_map_local, Actor.future_position, Actor.move_delta,
      Vec2.add, Vec2.smul, Vec2.zero, rat_floor_eq_int_floor]
  · norm_num [resolve_movement, Tilemap.blocks, Tilemap.tile_query, Tilemap.from_world_pos,
      Tilemap.to_map_local, Actor.future_position, Actor.move_delta,
      Vec2.add, Vec2.smul, Vec2.zero, Vec2.length_squared, rat_floor_eq_int_floor]

/-- Tracks the current player action and its progress (`PlayerActionState`
in `src/game/animation.rs`; `action_progress` is in seconds). -/
structure PlayerActionState where
  current_action : Option ActionType
  action_progress : ℚ
deriving DecidableEq, Repr

/-- The just-pressed edges of the three action keys consumed by
`update_player_actions` (`KeyE`, `KeyQ`, `KeyF`). -/
structure ActionInput where
  keyE : Bool
  keyQ : Bool
  keyF : Bool
deriving DecidableEq, Repr

/-- The per-action duration match of `update_player_actions`: 0.6 s for
each of the three actions, 0.0 for the unreachable wildcard arm. -/
def action_duration : Option ActionType → ℚ
  | some ActionType.Watering => 3 / 5
  | some ActionType.Hoeing => 3 / 5
  | some ActionType.Chopping => 3 / 5
  | none => 0

/-- The `update_player_actions` system of `src/game/animation.rs` for one
player: with no action in progress, a just-pressed action key starts the
matching action only when the intent is exactly zero (E starts Watering,
Q starts Hoeing, F starts Chopping) and transitions the animation into the
action state for the current facing; with an action in progress, the
progress advances by the tick delta and on reaching the duration the
action ends and the animation returns to idling at the current facing. -/
def update_player_actions (dt : ℚ) (input : ActionInput) (intent : Vec2)
    (animation : PlayerAnimation) (action_state : PlayerActionState) :
    PlayerAnimation × PlayerActionState :=
  let direction := animation.state.get_direction
  match action_state.current_action with
  | none =>
    if intent = Vec2.zero then
      if input.keyE then
        let new_state := PlayerAnimationState.from_action_and_direction
          ActionType.Watering direction
        (animation.update_state new_state, ⟨some ActionType.Watering, 0⟩)
      else if input.keyQ then
        let new_state := PlayerAnimationState.from_action_and_direction
          ActionType.Hoeing direction
        (animation.update_state new_state, ⟨some ActionType.Hoeing, 0⟩)
      else if input.keyF then
        let new_state := PlayerAnimationState.from_action_and_direction
          ActionType.Chopping direction
        (animation.update_state new_state, ⟨some ActionType.Chopping, 0⟩)
      else
        (animation, action_state)
    else
      (animation, action_state)
  | some action =>
    let progress := action_state.action_progress + dt
    if action_duration (some action) ≤ progress then
      let new_state := match direction with
        | Direction.Top => PlayerAnimationState.IdlingT
        | Direction.Bottom => PlayerAnimationState.IdlingB
        | Direction.Left => PlayerAnimationState.IdlingL
        | Direction.Right => PlayerAnimationState.IdlingR
      (animation.update_state new_state, ⟨none, progress⟩)
    else
      (animation, ⟨some action, progress⟩)

open PlayerAnimationState in
/-- The animation state `update_animation_movement` selects from the intent
and the current direction: idling at the current facing on zero intent;
otherwise walking, vertically when the absolute vertical intent strictly
exceeds the absolute horizontal intent (Top when positive, else Bottom),
horizontally otherwise (Right when positive, else Left). -/
def movement_animation_state (intent : Vec2) (current_direction : Direction) :
    PlayerAnimationState :=
  if intent = Vec2.zero then
    match current_direction with
    | Direction.Top => IdlingT
    | Direction.Bottom => IdlingB
    | Direction.Left => IdlingL
    | Direction.Right => IdlingR
  else
    if |intent.y| > |intent.x| then
      if intent.y > 0 then WalkingT else WalkingB
    else if intent.x > 0 then
      WalkingR
    else
      WalkingL

/-- The `update_animation_movement` system of `src/game/animation.rs` for
one player: skipped entirely while an action is in progress; otherwise the
movement-selected state is installed (with the dirty flag raised) when it
differs from the current one. -/
def update_animation_movement (intent : Vec2) (animation : PlayerAnimation)
    (action_state : PlayerActionState) : PlayerAnimation :=
  if action_state.current_action.isSome then
    animation
  else
    let animation_state := movement_animation_state intent animation.state.get_direction
    if animation.state ≠ animation_state then
      (animation.set_state_changed true).update_state animation_state
    else
      animation

/-- C6: for every nonzero intent, the walking direction is selected by
comparing the absolute intent components: vertical facing (Top when the
vertical intent is positive, else Bottom) exactly when the vertical
magnitude strictly exceeds the horizontal one, horizontal facing (Right
when positive, else Left) otherwise, including on exact magnitude
equality; and the selected state is a walking state. -/
theorem C6_direction_tiebreak (intent : Vec2) (d : Direction)
    (h : intent ≠ Vec2.zero) :
    (movement_animation_state intent d).get_direction
      = (if |intent.y| > |intent.x| then
          (if intent.y > 0 then Direction.Top else Direction.Bottom)
         else
          (if intent.x > 0 then Direction.Right else Direction.Left))
    ∧ (movement_animation_state intent d).is_walking = true := by
  unfold movement_animation_state
  rw [if_neg h]
  constructor
  · split
    · split <;> simp [PlayerAnimationState.get_direction]
    · split <;> simp [PlayerAnimationState.get_direction]
  · split
    · split <;> simp [PlayerAnimationState.is_walking]
    · split <;> simp [PlayerAnimationState.is_walking]

/-- Witness for C6 at a concrete input: a perfect diagonal (equal
magnitudes) with positive horizontal intent resolves to the horizontal
facing Right. -/
theorem C6_direction_tiebreak_witness :
    (movement_animation_state ⟨1, 1⟩ Direction.Top).get_direction = Direction.Right := by
  have h := (C6_direction_tiebreak ⟨1, 1⟩ Direction.Top (by simp [Vec2.zero])).1
  rw [h]
  norm_num

/-- C9: pressing an action key while the intent is nonzero or while an
action is already active changes nothing relative to pressing no key; an
action can come into progress during `update_player_actions` only when the
intent is exactly zero; and while an action is in progress
`update_animation_movement` never changes the animation instance, so
movement input cannot change the state or facing until the action
completes. -/
theorem C9_action_start_preconditions :
    (∀ (dt : ℚ) (input : ActionInput) (intent : Vec2) (animation : PlayerAnimation)
        (act : PlayerActionState),
      intent ≠ Vec2.zero ∨ act.current_action ≠ none →
      update_player_actions dt input intent animation act
        = update_player_actions dt ⟨false, false, false⟩ intent animation act)
    ∧ (∀ (dt : ℚ) (input : ActionInput) (intent : Vec2) (animation : PlayerAnimation)
        (act : PlayerActionState),
      act.current_action = none →
      ((update_player_actions dt input intent animation act).2.current_action).isSome →
      intent = Vec2.zero)
    ∧ (∀ (intent : Vec2) (animation : PlayerAnimation) (act : PlayerActionState),
      act.current_action.isSome →
      update_animation_movement intent animation act = animation) := by
  refine ⟨?_, ?_, ?_⟩
  · intro dt input intent animation act h
    rcases act with ⟨ca, pr⟩
    cases ca with
    | none =>
        have hintent : intent ≠ Vec2.zero := by
          rcases h with h | h
          · exact h
          · exact absurd rfl h
        simp [update_player_actions, hintent]
    | some action => simp [update_player_actions]
  · intro dt input intent animation act hnone
    rcases act with ⟨ca, pr⟩
    cases ca with
    | none =>
        by_cases hintent : intent = Vec2.zero
        · intro _
          exact hintent
        · simp [update_player_actions, hintent]
    | some action => simp at hnone
  · intro intent animation act h
    simp [update_animation_movement, h]

/-- Witness for C9 at concrete inputs: with an action in progress, all
three keys pressed and full rightward intent, the tick equals the keyless
tick, and movement does not disturb the animation instance. -/
theorem C9_action_start_preconditions_witness :
    update_player_actions (1 / 10) ⟨true, true, true⟩ ⟨1, 0⟩ PlayerAnimation.new
        ⟨some ActionType.Hoeing, 0⟩
      = update_player_actions (1 / 10) ⟨false, false, false⟩ ⟨1, 0⟩ PlayerAnimation.new
        ⟨some ActionType.Hoeing, 0⟩
    ∧ update_animation_movement ⟨1, 0⟩ PlayerAnimation.new ⟨some ActionType.Hoeing, 0⟩
      = PlayerAnimation.new :=
  ⟨C9_action_start_preconditions.1 (1 / 10) ⟨true, true, true⟩ ⟨1, 0⟩
      PlayerAnimation.new ⟨some ActionType.Hoeing, 0⟩ (Or.inr (by simp)),
   C9_action_start_preconditions.2.2 ⟨1, 0⟩ PlayerAnimation.new
      ⟨some ActionType.Hoeing, 0⟩ (by simp)⟩

end Fish
